import Mathlib

/-!
Verification development for the Atlas snapshot store and restore/diff engine.

The TypeScript sources are embedded shallowly:

* `SnapshotManager` (snapshotManager.ts): identifier generation, snapshot
  persistence (save/load as JSON records), catalog listing, the
  backup-then-restore protocol, and the full-workspace walk.
* `DiffViewer` (diffViewer.ts): per-file diff classification and the
  rendering of line segments produced by the `diff` library.
* `FileWatcher.shouldIgnoreFile` (fileWatcher.ts): the live-capture ignore
  predicate.

Modelling conventions:

* The filesystem is explicit data.  The workspace is an association list
  from relative path to text content; `fs.promises.writeFile` is
  `setAssoc` (overwrite if present, create otherwise) and reads always
  succeed.  The snapshots directory is an association list from snapshot
  id (the file name minus the `.json` suffix) to `Option StoredSnapshot`:
  `some rec` is a record whose JSON content parses, `none` is a record
  whose content fails to read or parse (`JSON.parse` throws and
  `loadSnapshot` catches).  JSON encoding of a well-formed record is
  treated as the identity embedding of `StoredSnapshot`.
* A JavaScript `Date` is modelled by its civil fields (`DateTime` below);
  `Date.prototype.toISOString` is `toISOString` and the `new Date(string)`
  parse of such a string is `parseISO`.  The timezone offset is taken to
  be zero, so `toTimeString` and `toISOString` agree on the time of day.
* `Math.random()` is modelled as a 52-bit dyadic rational `r / 2 ^ 52`
  (`r < 2 ^ 52`), which is what common engines produce, and
  `Number.prototype.toString(16)` as its terminating hexadecimal
  expansion (`numToString16`).
* The effects of `restoreSnapshot` are reified as the ordered event trace
  `restoreEvents` (one store write for the backup, then one workspace
  write per captured file).  An exception thrown by the k-th awaited
  write aborts the remaining ones and is caught at the operation
  boundary; this fault model is the `failAt` argument of
  `restoreSnapshot`: the events strictly before the faulting index are
  applied, the rest are not.
-/

namespace Atlas

/-! ## Generic association-list filesystem primitives -/

/-- Lookup in an association list keyed by strings (a directory of files). -/
def lookupAssoc {α : Type} (l : List (String × α)) (k : String) : Option α :=
  (l.find? (fun e => e.1 == k)).map (fun e => e.2)

/-- Overwrite-or-create semantics of `fs.promises.writeFile`: replace the
entry for `k` if present, otherwise append a new entry. -/
def setAssoc {α : Type} : List (String × α) → String → α → List (String × α)
  | [], k, v => [(k, v)]
  | e :: tl, k, v => if e.1 == k then (k, v) :: tl else e :: setAssoc tl k v

theorem lookupAssoc_setAssoc_self {α : Type} (l : List (String × α)) (k : String) (v : α) :
    lookupAssoc (setAssoc l k v) k = some v := by
  induction l with
  | nil => simp [setAssoc, lookupAssoc, List.find?]
  | cons e tl ih =>
    by_cases he : e.1 == k
    · simp [setAssoc, he, lookupAssoc, List.find?]
    · simpa [setAssoc, he, lookupAssoc, List.find?] using ih

theorem lookupAssoc_setAssoc_ne {α : Type} (l : List (String × α)) (k k' : String) (v : α)
    (h : k' ≠ k) : lookupAssoc (setAssoc l k v) k' = lookupAssoc l k' := by
  have hkk : (k == k') = false := by
    simp only [beq_eq_false_iff_ne, ne_eq]
    exact fun hk => h hk.symm
  induction l with
  | nil => simp [setAssoc, lookupAssoc, List.find?, hkk]
  | cons e tl ih =>
    by_cases he : e.1 == k
    · have he' : (e.1 == k') = false := by
        simp only [beq_iff_eq] at he
        simp only [beq_eq_false_iff_ne, ne_eq, he]
        exact fun hk => h hk.symm
      simp [setAssoc, he, lookupAssoc, List.find?, hkk, he']
    · by_cases he' : e.1 == k'
      · simp [setAssoc, he, lookupAssoc, List.find?, he']
      · simpa [setAssoc, he, lookupAssoc, List.find?, he'] using ih

/-! ## Data model (types.ts) -/

/-- FileSnapshot from types.ts: one captured file. -/
structure FileSnapshot where
  path : String
  content : String
  size : Nat
deriving DecidableEq

/-- SnapshotTrigger from types.ts. -/
inductive SnapshotTrigger where
  | file_save
  | file_create
  | file_delete
  | manual
  | auto
deriving DecidableEq

/-- Civil-field view of a JavaScript `Date` instant (timezone offset 0). -/
structure DateTime where
  year : Nat
  month : Nat
  day : Nat
  hour : Nat
  minute : Nat
  second : Nat
  millis : Nat
deriving DecidableEq

/-- Field bounds under which the fixed-width ISO-8601 rendering is faithful
(a real `Date` always satisfies them). -/
def DateTime.wf (t : DateTime) : Prop :=
  t.year < 10000 ∧ t.month < 100 ∧ t.day < 100 ∧ t.hour < 100 ∧ t.minute < 100
    ∧ t.second < 100 ∧ t.millis < 1000

instance (t : DateTime) : Decidable t.wf := by
  unfold DateTime.wf
  infer_instance

/-- Snapshot from types.ts (in-memory form, `timestamp` an instant). -/
structure Snapshot where
  id : String
  timestamp : DateTime
  trigger : SnapshotTrigger
  files : List FileSnapshot
  gitCommit : Option String
deriving DecidableEq

/-- StoredSnapshot from types.ts (persisted form, `timestamp` an ISO string). -/
structure StoredSnapshot where
  id : String
  timestamp : String
  trigger : SnapshotTrigger
  files : List FileSnapshot
  gitCommit : Option String
deriving DecidableEq

/-! ## Decimal digits and the ISO-8601 timestamp string -/

/-- Decimal digit character (code 48 is the character `0`). -/
def dchar (n : Nat) : Char := Char.ofNat (48 + n)

/-- Numeric value of a decimal digit character. -/
def dv (c : Char) : Nat := c.toNat - 48

theorem dv_dchar : ∀ k, k < 10 → dv (dchar k) = k := by decide

theorem isDigit_dchar : ∀ k, k < 10 → (dchar k).isDigit = true := by decide

/-- Two-digit zero-padded rendering. -/
def pad2l (n : Nat) : List Char := [dchar (n / 10), dchar (n % 10)]

/-- Three-digit zero-padded rendering. -/
def pad3l (n : Nat) : List Char := [dchar (n / 100), dchar (n / 10 % 10), dchar (n % 10)]

/-- Four-digit zero-padded rendering. -/
def pad4l (n : Nat) : List Char :=
  [dchar (n / 1000), dchar (n / 100 % 10), dchar (n / 10 % 10), dchar (n % 10)]

/-- Character list of `Date.prototype.toISOString`:
`YYYY-MM-DDTHH:MM:SS.mmmZ`. -/
def isoChars (t : DateTime) : List Char :=
  pad4l t.year ++ '-' :: pad2l t.month ++ '-' :: pad2l t.day ++ 'T' :: pad2l t.hour
    ++ ':' :: pad2l t.minute ++ ':' :: pad2l t.second ++ '.' :: pad3l t.millis ++ ['Z']

/-- Model of `Date.prototype.toISOString`. -/
def toISOString (t : DateTime) : String := String.mk (isoChars t)

/-- Model of `new Date(isoString)` on the exact format `toISOString`
produces; anything else parses to `none` (an invalid date). -/
def parseISO (s : String) : Option DateTime :=
  match s.data with
  | [y1, y2, y3, y4, c1, o1, o2, c2, d1, d2, c3, h1, h2, c4, i1, i2, c5, s1, s2, c6,
      m1, m2, m3, c7] =>
    if c1 == '-' && c2 == '-' && c3 == 'T' && c4 == ':' && c5 == ':' && c6 == '.' && c7 == 'Z'
        && y1.isDigit && y2.isDigit && y3.isDigit && y4.isDigit
        && o1.isDigit && o2.isDigit && d1.isDigit && d2.isDigit
        && h1.isDigit && h2.isDigit && i1.isDigit && i2.isDigit
        && s1.isDigit && s2.isDigit && m1.isDigit && m2.isDigit && m3.isDigit then
      some ⟨dv y1 * 1000 + dv y2 * 100 + dv y3 * 10 + dv y4,
            dv o1 * 10 + dv o2, dv d1 * 10 + dv d2,
            dv h1 * 10 + dv h2, dv i1 * 10 + dv i2, dv s1 * 10 + dv s2,
            dv m1 * 100 + dv m2 * 10 + dv m3⟩
    else none
  | _ => none

theorem parseISO_toISOString (t : DateTime) (h : t.wf) : parseISO (toISOString t) = some t := by
  obtain ⟨h1, h2, h3, h4, h5, h6, h7⟩ := h
  obtain ⟨yr, mo, dy, hr, mi, se, ms⟩ := t
  simp only at h1 h2 h3 h4 h5 h6 h7
  have d1 := dv_dchar (yr / 1000) (by omega)
  have d2 := dv_dchar (yr / 100 % 10) (by omega)
  have d3 := dv_dchar (yr / 10 % 10) (by omega)
  have d4 := dv_dchar (yr % 10) (by omega)
  have e1 := dv_dchar (mo / 10) (by omega)
  have e2 := dv_dchar (mo % 10) (by omega)
  have f1 := dv_dchar (dy / 10) (by omega)
  have f2 := dv_dchar (dy % 10) (by omega)
  have g1 := dv_dchar (hr / 10) (by omega)
  have g2 := dv_dchar (hr % 10) (by omega)
  have i1 := dv_dchar (mi / 10) (by omega)
  have i2 := dv_dchar (mi % 10) (by omega)
  have j1 := dv_dchar (se / 10) (by omega)
  have j2 := dv_dchar (se % 10) (by omega)
  have k1 := dv_dchar (ms / 100) (by omega)
  have k2 := dv_dchar (ms / 10 % 10) (by omega)
  have k3 := dv_dchar (ms % 10) (by omega)
  have w1 := isDigit_dchar (yr / 1000) (by omega)
  have w2 := isDigit_dchar (yr / 100 % 10) (by omega)
  have w3 := isDigit_dchar (yr / 10 % 10) (by omega)
  have w4 := isDigit_dchar (yr % 10) (by omega)
  have x1 := isDigit_dchar (mo / 10) (by omega)
  have x2 := isDigit_dchar (mo % 10) (by omega)
  have x3 := isDigit_dchar (dy / 10) (by omega)
  have x4 := isDigit_dchar (dy % 10) (by omega)
  have x5 := isDigit_dchar (hr / 10) (by omega)
  have x6 := isDigit_dchar (hr % 10) (by omega)
  have x7 := isDigit_dchar (mi / 10) (by omega)
  have x8 := isDigit_dchar (mi % 10) (by omega)
  have x9 := isDigit_dchar (se / 10) (by omega)
  have xa := isDigit_dchar (se % 10) (by omega)
  have xb := isDigit_dchar (ms / 100) (by omega)
  have xc := isDigit_dchar (ms / 10 % 10) (by omega)
  have xd := isDigit_dchar (ms % 10) (by omega)
  simp only [toISOString, isoChars, pad4l, pad2l, pad3l, List.cons_append, List.nil_append,
    parseISO]
  simp only [w1, w2, w3, w4, x1, x2, x3, x4, x5, x6, x7, x8, x9, xa, xb, xc, xd]
  simp only [d1, d2, d3, d4, e1, e2, f1, f2, g1, g2, i1, i2, j1, j2, k1, k2, k3]
  simp only [Bool.and_true, Bool.true_and, beq_self_eq_true, if_true]
  simp only [Option.some.injEq, DateTime.mk.injEq]
  refine ⟨?_, ?_, ?_, ?_, ?_, ?_, ?_⟩ <;> omega

/-! ## Serialization of snapshots (saveSnapshot / loadSnapshot) -/

/-- Conversion to the storable format inside `saveSnapshot` (`Date` to
ISO string); the record is then written as `JSON.stringify(., null, 2)`. -/
def storedOf (s : Snapshot) : StoredSnapshot :=
  { id := s.id
    timestamp := toISOString s.timestamp
    trigger := s.trigger
    files := s.files
    gitCommit := s.gitCommit }

/-- Conversion back inside `loadSnapshot` (string to `Date`).  An
unparseable timestamp yields JavaScript's invalid date, modelled by the
all-zero sentinel; `loadSnapshot` does not fail on it. -/
def snapshotFromStored (st : StoredSnapshot) : Snapshot :=
  { id := st.id
    timestamp := (parseISO st.timestamp).getD ⟨0, 0, 0, 0, 0, 0, 0⟩
    trigger := st.trigger
    files := st.files
    gitCommit := st.gitCommit }

/-- The snapshots directory: id (filename minus `.json`) mapped to the
record, `none` standing for a file whose content fails to read or parse. -/
abbrev SnapshotStore : Type := List (String × Option StoredSnapshot)

/-- Model of `SnapshotManager.saveSnapshot`: serialize and write keyed by id. -/
def putSnapshot (store : SnapshotStore) (s : Snapshot) : SnapshotStore :=
  setAssoc store s.id (some (storedOf s))

/-- Model of `SnapshotManager.loadSnapshot`: read the record for `id` and
deserialize it; a missing file and an unparseable file both hit the catch
branch and return `null` (here `none`). -/
def loadSnapshot (store : SnapshotStore) (id : String) : Option Snapshot :=
  match lookupAssoc store id with
  | none => none
  | some none => none
  | some (some st) => some (snapshotFromStored st)

/-! ## Ignore predicates -/

/-- Substring test on character lists, the semantics of
`String.prototype.includes`. -/
def inclAux (pat : List Char) : List Char → Bool
  | [] => pat.isPrefixOf ([] : List Char)
  | c :: tl => pat.isPrefixOf (c :: tl) || inclAux pat tl

/-- Model of `relativePath.includes(pattern)`. -/
def strIncludes (s pat : String) : Bool := inclAux pat.data s.data

/-- The denylist hard-coded in `SnapshotManager.getAllWorkspaceFiles`. -/
def backupIgnorePatterns : List String :=
  ["node_modules", ".git", "dist", "build", "out", ".vscode", ".hindsight"]

/-- Ignore predicate of the full-workspace backup walk
(`getAllWorkspaceFiles`): skip any relative path containing one of its
patterns. -/
def shouldIgnoreBackup (relativePath : String) : Bool :=
  backupIgnorePatterns.any (fun pattern => strIncludes relativePath pattern)

/-- The denylist hard-coded in `FileWatcher.shouldIgnoreFile`. -/
def watcherIgnorePatterns : List String :=
  ["node_modules", ".git", "dist", "build", "out", ".vscode", ".DS_Store", ".hindsight",
    "package-lock.json", "yarn.lock"]

/-- Model of `FileWatcher.shouldIgnoreFile`, the live-capture ignore
predicate. -/
def shouldIgnoreFile (relativePath : String) : Bool :=
  watcherIgnorePatterns.any (fun pattern => strIncludes relativePath pattern)

/-! ## Identity generation (generateSnapshotId) -/

/-- Lowercase hexadecimal digit character (codes 48.. are `0`..`9`,
codes 97.. are `a`..). -/
def hexChar (n : Nat) : Char :=
  if n < 10 then Char.ofNat (48 + n) else Char.ofNat (87 + n)

/-- Membership in `0-9a-f`, the alphabet of `Number.toString(16)`. -/
def isLowerHex (c : Char) : Bool :=
  (48 ≤ c.toNat && c.toNat ≤ 57) || (97 ≤ c.toNat && c.toNat ≤ 102)

/-- The thirteen hexadecimal fraction digits of `r / 2 ^ 52`, most
significant first. -/
def hexDigits52 (r : Nat) : List Char :=
  (List.range 13).map (fun i => hexChar (r / 16 ^ (12 - i) % 16))

/-- Drop trailing `0` digits, as `Number.toString(16)` prints no trailing
zeros of the fraction. -/
def dropTrailingZeros (l : List Char) : List Char :=
  (l.reverse.dropWhile (fun c => c == '0')).reverse

/-- Model of `Math.random().toString(16)` where the random double is
`r / 2 ^ 52`: the string `0.<hex fraction>` (just `0` for zero). -/
def numToString16 (r : Nat) : String :=
  if r = 0 then "0" else String.mk ('0' :: '.' :: dropTrailingZeros (hexDigits52 r))

/-- JavaScript `String.prototype.slice(a, b)` for `0 ≤ a ≤ b`. -/
def jsSlice (s : String) (a b : Nat) : String :=
  String.mk ((s.data.drop a).take (b - a))

/-- The `random` local of `generateSnapshotId`:
`Math.random().toString(16).slice(2, 8)`. -/
def randomSuffix (r : Nat) : String := jsSlice (numToString16 r) 2 8

/-- The `date` local of `generateSnapshotId`:
`now.toISOString().slice(0, 10)` with every dash replaced by nothing. -/
def dateComponent (t : DateTime) : String :=
  String.mk (((isoChars t).take 10).filter (fun c => c != '-'))

/-- Character list of `Date.prototype.toTimeString` up to index 8
(`HH:MM:SS`; the sliced-off remainder is irrelevant).  Timezone offset is
taken as zero. -/
def timeStringChars (t : DateTime) : List Char :=
  pad2l t.hour ++ ':' :: pad2l t.minute ++ ':' :: pad2l t.second

/-- The `time` local of `generateSnapshotId`:
`now.toTimeString().slice(0, 8)` with every colon replaced by nothing. -/
def timeComponent (t : DateTime) : String :=
  String.mk (((timeStringChars t).take 8).filter (fun c => c != ':'))

/-- Model of `SnapshotManager.generateSnapshotId`, with the ambient clock
`now` and the random draw `r` (the 52-bit numerator of `Math.random()`)
made explicit. -/
def generateSnapshotId (now : DateTime) (r : Nat) : String :=
  "snapshot_" ++ dateComponent now ++ "_" ++ timeComponent now ++ "_" ++ randomSuffix r

/-! ## Catalog ordering (getAllSnapshotIds) -/

/-- Code-unit lexicographic comparison of character lists: the comparator
of JavaScript's default `Array.prototype.sort` on strings (our ids are
ASCII, where code units and code points agree). -/
def charListLe : List Char → List Char → Bool
  | [], _ => true
  | _ :: _, [] => false
  | a :: as, b :: bs =>
    if a.toNat < b.toNat then true
    else if b.toNat < a.toNat then false
    else charListLe as bs

/-- The sort relation used to model `Array.prototype.sort()` on strings. -/
def StrLeR (a b : String) : Prop := charListLe a.data b.data = true

instance : DecidableRel StrLeR := fun _ _ => inferInstanceAs (Decidable (_ = true))

theorem charListLe_cons_iff (a b : Char) (as bs : List Char) :
    charListLe (a :: as) (b :: bs) = true ↔
      (a.toNat < b.toNat ∨ (a.toNat = b.toNat ∧ charListLe as bs = true)) := by
  simp only [charListLe]
  split_ifs with h1 h2
  · simp only [true_iff]
    exact Or.inl h1
  · simp only [false_iff]
    rintro (h | ⟨h, -⟩) <;> omega
  · constructor
    · intro h
      exact Or.inr ⟨by omega, h⟩
    · rintro (h | ⟨-, h⟩)
      · omega
      · exact h

theorem charListLe_total (a b : List Char) : charListLe a b = true ∨ charListLe b a = true := by
  induction a generalizing b with
  | nil => left; rfl
  | cons x xs ih =>
    cases b with
    | nil => right; rfl
    | cons y ys =>
      rcases Nat.lt_trichotomy x.toNat y.toNat with h | h | h
      · left; rw [charListLe_cons_iff]; exact Or.inl h
      · rcases ih ys with h2 | h2
        · left; rw [charListLe_cons_iff]; exact Or.inr ⟨h, h2⟩
        · right; rw [charListLe_cons_iff]; exact Or.inr ⟨h.symm, h2⟩
      · right; rw [charListLe_cons_iff]; exact Or.inl h

theorem charListLe_trans (a b c : List Char) (hab : charListLe a b = true)
    (hbc : charListLe b c = true) : charListLe a c = true := by
  induction a generalizing b c with
  | nil => rfl
  | cons x xs ih =>
    cases b with
    | nil => simp [charListLe] at hab
    | cons y ys =>
      cases c with
      | nil => simp [charListLe] at hbc
      | cons z zs =>
        rw [charListLe_cons_iff] at hab hbc ⊢
        rcases hab with h | ⟨h, h'⟩ <;> rcases hbc with g | ⟨g, g'⟩
        · exact Or.inl (by omega)
        · exact Or.inl (by omega)
        · exact Or.inl (by omega)
        · exact Or.inr ⟨by omega, ih ys zs h' g'⟩

instance : IsTotal String StrLeR := ⟨fun a b => charListLe_total a.data b.data⟩

instance : IsTrans String StrLeR :=
  ⟨fun a b c => charListLe_trans a.data b.data c.data⟩

/-- Model of `SnapshotManager.getAllSnapshotIds`: enumerate the snapshots
directory (our store keys are the `.json` filenames already stripped of
their extension), sort ascending with the default comparator, and
reverse.  On a set of distinct keys every comparison sort returns the
same list, so insertion sort stands in for `Array.prototype.sort`. -/
def getAllSnapshotIds (store : SnapshotStore) : List String :=
  (List.insertionSort StrLeR (store.map (fun e => e.1))).reverse

/-! ## Restore engine (restoreSnapshot and its helpers) -/

/-- Prefix test on strings (by their character lists). -/
def strStartsWith (p s : String) : Bool := p.data.isPrefixOf s.data

/-- One FileCapture per tracked workspace file: the flat-list rendering of
the recursive walk `getAllWorkspaceFiles` (a pruned directory's
descendants all contain the pruned pattern in their relative path, so
pruning equals filtering at file granularity) followed by the per-file
read/stat in `createBackupBeforeRestore`.  `size` is the byte count of
the content. -/
def trackedFiles (ws : List (String × String)) : List FileSnapshot :=
  (ws.filter (fun e => !(shouldIgnoreBackup e.1))).map
    (fun e => { path := e.1, content := e.2, size := e.2.utf8ByteSize })

/-- Model of `SnapshotManager.createBackupBeforeRestore` up to the point
where the backup snapshot value is built (its `saveSnapshot` call is the
first event of the restore trace): a `backup_`-prefixed id, trigger
`manual`, one capture per tracked workspace file. -/
def createBackupBeforeRestore (ws : List (String × String)) (now : DateTime) (r : Nat) :
    Snapshot :=
  { id := "backup_" ++ generateSnapshotId now r
    timestamp := now
    trigger := SnapshotTrigger.manual
    files := trackedFiles ws
    gitCommit := none }

/-- Combined mutable state of the system: the live workspace files and the
snapshots directory. -/
structure SysState where
  ws : List (String × String)
  store : SnapshotStore
deriving DecidableEq

/-- A single awaited write performed by `restoreSnapshot`: persisting a
snapshot record via `saveSnapshot`, or overwriting one live workspace
file. -/
inductive WEvent where
  | putSnap (s : Snapshot)
  | writeFile (p c : String)
deriving DecidableEq

/-- Whether an event is a store persist. -/
def isPutSnap : WEvent → Bool
  | WEvent.putSnap _ => true
  | WEvent.writeFile _ _ => false

def applyEvent (st : SysState) : WEvent → SysState
  | WEvent.putSnap s => { st with store := putSnapshot st.store s }
  | WEvent.writeFile p c => { st with ws := setAssoc st.ws p c }

def runEvents (st : SysState) (evs : List WEvent) : SysState :=
  evs.foldl applyEvent st

/-- The ordered trace of writes `restoreSnapshot(targetId)` performs:
nothing when the target does not resolve; otherwise the backup persist
followed by one workspace write per file capture of the target. -/
def restoreEvents (st : SysState) (targetId : String) (now : DateTime) (r : Nat) :
    List WEvent :=
  match loadSnapshot st.store targetId with
  | none => []
  | some snap =>
    WEvent.putSnap (createBackupBeforeRestore st.ws now r)
      :: snap.files.map (fun f => WEvent.writeFile f.path f.content)

/-- Outcome record returned by `restoreSnapshot`. -/
structure RestoreResult where
  success : Bool
  backupId : Option String
  error : Option String
deriving DecidableEq

/-- Model of `SnapshotManager.restoreSnapshot`.  `failAt = some k` injects
an exception at the k-th awaited write: the writes before it are applied,
the remainder are not, and the surrounding catch returns a failure
outcome.  `failAt = none` is a fault-free run. -/
def restoreSnapshot (st : SysState) (targetId : String) (now : DateTime) (r : Nat)
    (failAt : Option Nat) : SysState × RestoreResult :=
  match loadSnapshot st.store targetId with
  | none => (st, { success := false, backupId := none, error := some "Snapshot not found" })
  | some snap =>
    let backup := createBackupBeforeRestore st.ws now r
    let evs := WEvent.putSnap backup
      :: snap.files.map (fun f => WEvent.writeFile f.path f.content)
    match failAt with
    | some k =>
      if k < evs.length then
        (runEvents st (evs.take k),
          { success := false, backupId := none, error := some "restore failed" })
      else
        (runEvents st evs, { success := true, backupId := some backup.id, error := none })
    | none => (runEvents st evs, { success := true, backupId := some backup.id, error := none })

/-! ## Diff viewer (diffViewer.ts) -/

/-- One element of the `diff` library's `Diff.diffLines` output.  The diff
algorithm is an external dependency, so results about the viewer are
stated for an arbitrary producer of such change lists. -/
structure DiffChange where
  value : String
  added : Bool
  removed : Bool
deriving DecidableEq

/-- Single-separator splitting, the semantics of JavaScript
`String.prototype.split` with a one-character separator: `acc` is the
current fragment, reversed. -/
def jsSplitAux (sep : Char) : List Char → List Char → List String
  | [], acc => [String.mk acc.reverse]
  | c :: cs, acc =>
    if c == sep then String.mk acc.reverse :: jsSplitAux sep cs []
    else jsSplitAux sep cs (c :: acc)

/-- Model of `s.split(sep)` for a one-character separator. -/
def jsSplit (s : String) (sep : Char) : List String := jsSplitAux sep s.data []

/-- The `lines` local of `generateDiffHtml`:
`part.value.split(newline).filter(line => line !== '')` (every empty
fragment of the split is removed, wherever it occurs). -/
def segmentLines (part : DiffChange) : List String :=
  ((jsSplit part.value '\n').filter (fun line => line != ""))

/-- Replacement for one character under the HTML escape map of
`escapeHtml` (codes 38 `&`, 60 `<`, 62 `>`, 34 double quote, 39 single
quote); other characters pass through. -/
def escapeChar (c : Char) : String :=
  if c.toNat = 38 then "&amp;"
  else if c.toNat = 60 then "&lt;"
  else if c.toNat = 62 then "&gt;"
  else if c.toNat = 34 then "&quot;"
  else if c.toNat = 39 then "&#039;"
  else String.mk [c]

/-- Model of `DiffViewer.escapeHtml`. -/
def escapeHtml (s : String) : String := String.join (s.data.map escapeChar)

/-- Model of `DiffViewer.generateDiffHtml`: each change part becomes one
div per non-empty line, classed by the part's added/removed flags, all
joined with the empty separator. -/
def generateDiffHtmlStr (diffResult : List DiffChange) : String :=
  String.join (diffResult.map (fun part =>
    let cls := if part.added then "diff-added"
      else if part.removed then "diff-removed"
      else "diff-unchanged"
    String.join ((segmentLines part).map (fun line =>
      "<div class=\"diff-line " ++ cls ++ "\">" ++ escapeHtml line ++ "</div>"))))

/-- One element of the `diffs` array built by `_getHtmlForDiff`. -/
structure FileDiffEntry where
  path : String
  oldContent : Option String
  newContent : Option String
  diffHtml : String
deriving DecidableEq

/-- `snapshot.files.find(f => f.path === filePath)`. -/
def findFile (s : Snapshot) (p : String) : Option FileSnapshot :=
  s.files.find? (fun f => f.path == p)

/-- The iteration order of the `Set` of all file paths in `_getHtmlForDiff`
(insertion order, old snapshot's paths first, duplicates keep their first
position). -/
def unionPaths (oldSnapshot newSnapshot : Snapshot) : List String :=
  (oldSnapshot.files.map (fun f => f.path)
    ++ newSnapshot.files.map (fun f => f.path)).eraseDups

/-- The entry `_getHtmlForDiff` pushes for one path.  In the source
`oldContent` is `oldFile?.content || ''` guarded by `oldFile ? _ : null`,
which is the plain content when the file is present (`c || ''` equals `c`
up to the empty string) and null otherwise. -/
def mkEntry (diffAlg : String → String → List DiffChange)
    (oldSnapshot newSnapshot : Snapshot) (p : String) : FileDiffEntry :=
  let oldFile := findFile oldSnapshot p
  let newFile := findFile newSnapshot p
  { path := p
    oldContent := oldFile.map (fun f => f.content)
    newContent := newFile.map (fun f => f.content)
    diffHtml := generateDiffHtmlStr
      (diffAlg ((oldFile.map (fun f => f.content)).getD "")
        ((newFile.map (fun f => f.content)).getD "")) }

/-- The `diffs` array of `_getHtmlForDiff`, parameterized by the external
line-diff algorithm. -/
def computeDiffs (diffAlg : String → String → List DiffChange)
    (oldSnapshot newSnapshot : Snapshot) : List FileDiffEntry :=
  (unionPaths oldSnapshot newSnapshot).map (mkEntry diffAlg oldSnapshot newSnapshot)

/-- The markup block emitted for a changed file (whitespace normalized;
the content placeholder falls back to a no-changes div exactly when
`diffHtml` is the empty string, as `diff.diffHtml || fallback` does). -/
def fileDiffBlock (status statusLabel : String) (d : FileDiffEntry) : String :=
  "<div class=\"file-diff\"><div class=\"file-header\">" ++ d.path
    ++ "<span class=\"file-status status-" ++ status ++ "\">" ++ statusLabel
    ++ "</span></div><div class=\"diff-content\">"
    ++ (if d.diffHtml == "" then "<div class=\"no-changes\">No changes</div>" else d.diffHtml)
    ++ "</div></div>"

/-- Model of `DiffViewer.generateFileDiffHtml`: classify the entry as
added, deleted, modified, or unchanged; an unchanged file contributes the
empty string (it is skipped). -/
def generateFileDiffHtml (d : FileDiffEntry) : String :=
  if d.oldContent = none then fileDiffBlock "added" "ADDED" d
  else if d.newContent = none then fileDiffBlock "deleted" "DELETED" d
  else if d.oldContent = d.newContent then ""
  else fileDiffBlock "modified" "MODIFIED" d

/-- The concatenation
`diffs.map(diff => this.generateFileDiffHtml(diff)).join('')` interpolated
into the page by `_getHtmlForDiff`: the whole per-file diff output. -/
def renderFileDiffSections (diffAlg : String → String → List DiffChange)
    (oldSnapshot newSnapshot : Snapshot) : String :=
  String.join ((computeDiffs diffAlg oldSnapshot newSnapshot).map generateFileDiffHtml)

/-- Claim-side rendering of the C9 sentence (from the specification's
words, for comparison with `segmentLines`): the newline split with only
the blank trailing fragments excluded, interior blank lines preserved. -/
def linesPerSpecC9 (value : String) : List String :=
  ((jsSplit value '\n').reverse.dropWhile (fun line => line == "")).reverse

/-! ## Claim C2: restore of an unknown identifier -/

/-- C2: for every identifier that resolves to no stored snapshot,
`restoreSnapshot` returns a failure outcome carrying the not-found error,
creates no backup snapshot (the store is unchanged), and performs zero
workspace mutation (the whole state is returned as it was). -/
theorem restore_notFound (st : SysState) (targetId : String) (now : DateTime) (r : Nat)
    (failAt : Option Nat) (h : loadSnapshot st.store targetId = none) :
    restoreSnapshot st targetId now r failAt
      = (st, { success := false, backupId := none, error := some "Snapshot not found" }) := by
  simp [restoreSnapshot, h]

/-- Witness for C2: restoring a nonexistent id on a concrete one-file
workspace with an empty store leaves everything untouched and fails. -/
theorem restore_notFound_witness :
    restoreSnapshot ⟨[("a.txt", "hello")], []⟩ "nonexistent-id" ⟨2023, 1, 1, 0, 0, 0, 0⟩ 0 none
      = (⟨[("a.txt", "hello")], []⟩,
          { success := false, backupId := none, error := some "Snapshot not found" }) :=
  restore_notFound _ _ _ _ _ (by decide)

/-! ## Claim C6: ignore rules of the backup walk versus live capture -/

/-- C6 counterexample: the two ignore predicates are not equal.  The live
watcher excludes `package-lock.json` but the backup walk does not (its
denylist lacks the `.DS_Store`, `package-lock.json` and `yarn.lock`
entries), so a lockfile is tracked by the backup walk yet invisible to
live capture. -/
theorem ignoreRules_divergence :
    shouldIgnoreFile "package-lock.json" = true
      ∧ shouldIgnoreBackup "package-lock.json" = false := by decide

/-- C6 amended: the inclusion that does hold.  Every path the backup walk
excludes is also excluded by live capture (the backup denylist is a
subset of the watcher denylist), but not conversely. -/
theorem backupIgnore_subset_watcher (p : String) (h : shouldIgnoreBackup p = true) :
    shouldIgnoreFile p = true := by
  simp only [shouldIgnoreBackup, backupIgnorePatterns, List.any_cons, List.any_nil,
    Bool.or_eq_true] at h
  simp only [shouldIgnoreFile, watcherIgnorePatterns, List.any_cons, List.any_nil,
    Bool.or_eq_true]
  tauto

/-- Witness for the amended C6 at a concrete dependency-directory path. -/
theorem backupIgnore_subset_watcher_witness :
    shouldIgnoreFile "node_modules/lib.js" = true :=
  backupIgnore_subset_watcher "node_modules/lib.js" (by decide)

/-! ## Claim C7: lookup failures are an explicit absent result -/

/-- C7: `loadSnapshot` yields the explicit absent result exactly when the
record is missing from the store or its persisted content fails to read
or parse; in particular a missing and a corrupt record are
indistinguishable to the caller (both are `none`, never a thrown fault —
the function is total). -/
theorem loadSnapshot_absent_iff (store : SnapshotStore) (id : String) :
    loadSnapshot store id = none ↔
      (lookupAssoc store id = none ∨ lookupAssoc store id = some none) := by
  rcases hl : lookupAssoc store id with _ | rec
  · simp [loadSnapshot, hl]
  · cases rec <;> simp [loadSnapshot, hl]

/-! ## Claim C9: lines of a diff segment -/

/-- C9 counterexample: on the segment text `a`, blank line, `b` the code
produces `[a, b]` — the interior blank line is dropped — while the claim
(only trailing blank fragments excluded, interior blanks preserved)
demands `[a, blank, b]`. -/
theorem segmentLines_counterexample :
    segmentLines { value := "a\n\nb", added := true, removed := false } = ["a", "b"]
      ∧ linesPerSpecC9 "a\n\nb" = ["a", "", "b"]
      ∧ segmentLines { value := "a\n\nb", added := true, removed := false }
          ≠ linesPerSpecC9 "a\n\nb" := by decide

/-- C9 amended: each change segment's lines are the newline-split of the
segment's text with every empty fragment excluded, wherever it occurs
(trailing or interior): no line is blank, the lines form a sublist of the
split, and every non-blank fragment is kept with its multiplicity. -/
theorem segmentLines_amended (part : DiffChange) :
    (∀ s ∈ segmentLines part, s ≠ "")
      ∧ (segmentLines part).Sublist (jsSplit part.value '\n')
      ∧ ∀ s : String, s ≠ "" →
          (segmentLines part).count s = (jsSplit part.value '\n').count s := by
  refine ⟨?_, ?_, ?_⟩
  · intro s hs
    unfold segmentLines at hs
    rw [List.mem_filter] at hs
    simpa using hs.2
  · exact List.filter_sublist _
  · intro s hs
    unfold segmentLines
    rw [List.count_filter]
    simp [hs]

/-- Witness for the amended C9 on a concrete segment containing a blank
line. -/
theorem segmentLines_amended_witness :
    (segmentLines { value := "x\n\na", added := false, removed := false }).count "x"
      = (jsSplit "x\n\na" '\n').count "x" :=
  (segmentLines_amended { value := "x\n\na", added := false, removed := false }).2.2 "x"
    (by decide)

/-! ## Claim C3: catalog ordering -/

/-- C3 counterexample: a store holding an ordinary snapshot created on
2023-01-01 and a backup snapshot created later, on 2023-01-02.  The claim
demands newest-first (the backup id first); the code sorts by id, and
`backup_` sorts before `snapshot_`, so the older ordinary id comes first.
The remaining conjuncts exhibit that the backup's creation instant is
indeed the later one. -/
theorem getAllSnapshotIds_counterexample :
    getAllSnapshotIds
        [("snapshot_20230101_100000_aaaaaa",
            some { id := "snapshot_20230101_100000_aaaaaa",
                   timestamp := toISOString ⟨2023, 1, 1, 10, 0, 0, 0⟩,
                   trigger := SnapshotTrigger.file_save, files := [], gitCommit := none }),
          ("backup_snapshot_20230102_100000_bbbbbb",
            some { id := "backup_snapshot_20230102_100000_bbbbbb",
                   timestamp := toISOString ⟨2023, 1, 2, 10, 0, 0, 0⟩,
                   trigger := SnapshotTrigger.manual, files := [], gitCommit := none })]
      = ["snapshot_20230101_100000_aaaaaa", "backup_snapshot_20230102_100000_bbbbbb"]
      ∧ StrLeR (toISOString ⟨2023, 1, 1, 10, 0, 0, 0⟩) (toISOString ⟨2023, 1, 2, 10, 0, 0, 0⟩)
      ∧ toISOString ⟨2023, 1, 1, 10, 0, 0, 0⟩ ≠ toISOString ⟨2023, 1, 2, 10, 0, 0, 0⟩ := by
  decide

/-- C3 amended: `getAllSnapshotIds` returns exactly the stored identifiers
(a permutation of the store's keys) sorted in descending code-unit
lexicographic order.  For ordinary snapshot ids this coincides with
newest-first creation order at second granularity, but `backup_`-prefixed
ids sort before all `snapshot_` ids regardless of creation time. -/
theorem getAllSnapshotIds_complete_sortedDesc (store : SnapshotStore) :
    (getAllSnapshotIds store).Perm (store.map (fun e => e.1))
      ∧ List.Sorted (fun a b => StrLeR b a) (getAllSnapshotIds store) := by
  constructor
  · exact (List.reverse_perm _).trans (List.perm_insertionSort _ _)
  · have h := List.sorted_insertionSort StrLeR (store.map (fun e => e.1))
    unfold getAllSnapshotIds
    exact (List.pairwise_reverse).2 h

/-! ## Claim C4: serialization round trip -/

/-- C4: deserializing the persisted record produced by serializing a
snapshot (saving it to the store and loading it back by its id) yields
the snapshot unchanged field for field, the timestamp having survived the
ISO-string round trip at instant granularity.  The hypothesis is the
field-bound well-formedness every real `Date` satisfies. -/
theorem putSnapshot_loadSnapshot_roundTrip (store : SnapshotStore) (s : Snapshot)
    (h : s.timestamp.wf) :
    loadSnapshot (putSnapshot store s) s.id = some s := by
  obtain ⟨id, ts, tr, fs, gc⟩ := s
  simp only at h
  unfold loadSnapshot putSnapshot
  rw [lookupAssoc_setAssoc_self]
  show some (snapshotFromStored (storedOf ⟨id, ts, tr, fs, gc⟩)) = _
  unfold snapshotFromStored storedOf
  simp only
  rw [parseISO_toISOString ts h]
  rfl

/-- Witness for C4 at a concrete snapshot with one file capture and a git
revision reference. -/
theorem putSnapshot_loadSnapshot_roundTrip_witness :
    loadSnapshot
        (putSnapshot []
          { id := "snapshot_20230101_120000_abcdef",
            timestamp := ⟨2023, 1, 1, 12, 0, 0, 0⟩,
            trigger := SnapshotTrigger.file_save,
            files := [{ path := "a.txt", content := "hello", size := 5 }],
            gitCommit := some "deadbeef" })
        "snapshot_20230101_120000_abcdef"
      = some { id := "snapshot_20230101_120000_abcdef",
               timestamp := ⟨2023, 1, 1, 12, 0, 0, 0⟩,
               trigger := SnapshotTrigger.file_save,
               files := [{ path := "a.txt", content := "hello", size := 5 }],
               gitCommit := some "deadbeef" } :=
  putSnapshot_loadSnapshot_roundTrip []
    { id := "snapshot_20230101_120000_abcdef",
      timestamp := ⟨2023, 1, 1, 12, 0, 0, 0⟩,
      trigger := SnapshotTrigger.file_save,
      files := [{ path := "a.txt", content := "hello", size := 5 }],
      gitCommit := some "deadbeef" }
    (by decide)

/-! ## Claim C8: shape of generated identifiers -/

theorem dchar_ne_dash : ∀ k, k < 10 → (dchar k != '-') = true := by decide

theorem dchar_ne_colon : ∀ k, k < 10 → (dchar k != ':') = true := by decide

theorem hexChar_isLowerHex : ∀ k, k < 16 → isLowerHex (hexChar k) = true := by decide

theorem dateComponent_data (t : DateTime) (h : t.wf) :
    (dateComponent t).data
      = [dchar (t.year / 1000), dchar (t.year / 100 % 10), dchar (t.year / 10 % 10),
         dchar (t.year % 10), dchar (t.month / 10), dchar (t.month % 10),
         dchar (t.day / 10), dchar (t.day % 10)] := by
  obtain ⟨h1, h2, h3, h4, h5, h6, h7⟩ := h
  have hsplit : isoChars t
      = (pad4l t.year ++ '-' :: pad2l t.month ++ '-' :: pad2l t.day)
        ++ ('T' :: pad2l t.hour ++ ':' :: pad2l t.minute ++ ':' :: pad2l t.second
            ++ '.' :: pad3l t.millis ++ ['Z']) := by
    simp [isoChars, List.append_assoc]
  have hlen : (pad4l t.year ++ '-' :: pad2l t.month ++ '-' :: pad2l t.day).length = 10 := by
    simp [pad4l, pad2l]
  have n1 := dchar_ne_dash (t.year / 1000) (by omega)
  have n2 := dchar_ne_dash (t.year / 100 % 10) (by omega)
  have n3 := dchar_ne_dash (t.year / 10 % 10) (by omega)
  have n4 := dchar_ne_dash (t.year % 10) (by omega)
  have n5 := dchar_ne_dash (t.month / 10) (by omega)
  have n6 := dchar_ne_dash (t.month % 10) (by omega)
  have n7 := dchar_ne_dash (t.day / 10) (by omega)
  have n8 := dchar_ne_dash (t.day % 10) (by omega)
  show (((isoChars t).take 10).filter (fun c => c != '-')) = _
  rw [hsplit, ← hlen, List.take_left]
  simp only [pad4l, pad2l, List.cons_append, List.nil_append, List.filter_cons,
    n1, n2, n3, n4, n5, n6, n7, n8, if_true]
  norm_num

theorem timeComponent_data (t : DateTime) (h : t.wf) :
    (timeComponent t).data
      = [dchar (t.hour / 10), dchar (t.hour % 10), dchar (t.minute / 10), dchar (t.minute % 10),
         dchar (t.second / 10), dchar (t.second % 10)] := by
  obtain ⟨h1, h2, h3, h4, h5, h6, h7⟩ := h
  have hlen : (timeStringChars t).length = 8 := by
    simp [timeStringChars, pad2l]
  have n1 := dchar_ne_colon (t.hour / 10) (by omega)
  have n2 := dchar_ne_colon (t.hour % 10) (by omega)
  have n3 := dchar_ne_colon (t.minute / 10) (by omega)
  have n4 := dchar_ne_colon (t.minute % 10) (by omega)
  have n5 := dchar_ne_colon (t.second / 10) (by omega)
  have n6 := dchar_ne_colon (t.second % 10) (by omega)
  show (((timeStringChars t).take 8).filter (fun c => c != ':')) = _
  rw [← hlen, List.take_length]
  simp only [timeStringChars, pad2l, List.cons_append, List.nil_append, List.filter_cons,
    n1, n2, n3, n4, n5, n6, if_true]
  norm_num

theorem randomSuffix_length_le (r : Nat) : (randomSuffix r).length ≤ 6 := by
  show ((((numToString16 r).data.drop 2).take (8 - 2))).length ≤ 6
  rw [List.length_take]
  omega

theorem randomSuffix_lowerHex (r : Nat) : (randomSuffix r).data.all isLowerHex = true := by
  rw [List.all_eq_true]
  intro c hc
  by_cases hr : r = 0
  · subst hr
    simp [randomSuffix, jsSlice, numToString16] at hc
  · have hc' : c ∈ dropTrailingZeros (hexDigits52 r) := by
      have : (randomSuffix r).data
          = (('0' :: '.' :: dropTrailingZeros (hexDigits52 r)).drop 2).take (8 - 2) := by
        simp [randomSuffix, jsSlice, numToString16, hr]
      rw [this] at hc
      exact List.take_subset _ _ hc
    have hc2 : c ∈ hexDigits52 r := by
      unfold dropTrailingZeros at hc'
      rw [List.mem_reverse] at hc'
      have := (List.dropWhile_sublist (l := (hexDigits52 r).reverse)
        (p := fun c => c == '0')).subset hc'
      rwa [List.mem_reverse] at this
    unfold hexDigits52 at hc2
    rw [List.mem_map] at hc2
    obtain ⟨i, -, rfl⟩ := hc2
    exact hexChar_isLowerHex _ (Nat.mod_lt _ (by norm_num))

/-- C8 counterexample to fixed width: the random suffix is the slice of the
double's terminating hex expansion, which can be shorter than six
characters.  For the draw `2 ^ 48` (the double `2 ^ -4`, hex `0.1`) the
suffix is the single character `1`, while for the draw `1` it has the
full six characters — two identifiers whose random suffixes differ in
width. -/
theorem generateSnapshotId_counterexample :
    generateSnapshotId ⟨2023, 1, 1, 0, 0, 0, 0⟩ (2 ^ 48) = "snapshot_20230101_000000_1"
      ∧ generateSnapshotId ⟨2023, 1, 1, 0, 0, 0, 0⟩ 1 = "snapshot_20230101_000000_000000"
      ∧ (randomSuffix (2 ^ 48)).length ≠ (randomSuffix 1).length := by
  decide

/-- C8 amended: every identifier is `snapshot_`, a separator-free 8-digit
calendar date, an underscore, a separator-free 6-digit 24-hour time, an
underscore, and a random suffix of AT MOST six lowercase-hexadecimal
characters (shorter when the random double's hex expansion terminates
early, so the width is not fixed); a backup identity is the same form
prefixed with the fixed marker `backup_`. -/
theorem generateSnapshotId_format (now : DateTime) (r : Nat) (ws : List (String × String))
    (h : now.wf) :
    generateSnapshotId now r
        = "snapshot_" ++ dateComponent now ++ "_" ++ timeComponent now ++ "_" ++ randomSuffix r
      ∧ (dateComponent now).length = 8
      ∧ (dateComponent now).data.all Char.isDigit = true
      ∧ (timeComponent now).length = 6
      ∧ (timeComponent now).data.all Char.isDigit = true
      ∧ (randomSuffix r).length ≤ 6
      ∧ (randomSuffix r).data.all isLowerHex = true
      ∧ (createBackupBeforeRestore ws now r).id = "backup_" ++ generateSnapshotId now r := by
  obtain ⟨h1, h2, h3, h4, h5, h6, h7⟩ := h
  have hd := dateComponent_data now ⟨h1, h2, h3, h4, h5, h6, h7⟩
  have ht := timeComponent_data now ⟨h1, h2, h3, h4, h5, h6, h7⟩
  have w1 := isDigit_dchar (now.year / 1000) (by omega)
  have w2 := isDigit_dchar (now.year / 100 % 10) (by omega)
  have w3 := isDigit_dchar (now.year / 10 % 10) (by omega)
  have w4 := isDigit_dchar (now.year % 10) (by omega)
  have w5 := isDigit_dchar (now.month / 10) (by omega)
  have w6 := isDigit_dchar (now.month % 10) (by omega)
  have w7 := isDigit_dchar (now.day / 10) (by omega)
  have w8 := isDigit_dchar (now.day % 10) (by omega)
  have v1 := isDigit_dchar (now.hour / 10) (by omega)
  have v2 := isDigit_dchar (now.hour % 10) (by omega)
  have v3 := isDigit_dchar (now.minute / 10) (by omega)
  have v4 := isDigit_dchar (now.minute % 10) (by omega)
  have v5 := isDigit_dchar (now.second / 10) (by omega)
  have v6 := isDigit_dchar (now.second % 10) (by omega)
  refine ⟨rfl, ?_, ?_, ?_, ?_, randomSuffix_length_le r, randomSuffix_lowerHex r, rfl⟩
  · show (dateComponent now).data.length = 8
    rw [hd]
    rfl
  · rw [hd]
    simp [w1, w2, w3, w4, w5, w6, w7, w8]
  · show (timeComponent now).data.length = 6
    rw [ht]
    rfl
  · rw [ht]
    simp [v1, v2, v3, v4, v5, v6]

/-- Witness for the amended C8 at a concrete clock reading and random
draw. -/
theorem generateSnapshotId_format_witness :
    (dateComponent ⟨2023, 10, 21, 14, 30, 25, 0⟩).length = 8
      ∧ (randomSuffix 12345).data.all isLowerHex = true :=
  ⟨(generateSnapshotId_format ⟨2023, 10, 21, 14, 30, 25, 0⟩ 12345 [] (by decide)).2.1,
   (generateSnapshotId_format ⟨2023, 10, 21, 14, 30, 25, 0⟩ 12345 [] (by decide)).2.2.2.2.2.2.1⟩

/-! ## Claims C1 and C10: the backup-then-restore protocol -/

theorem runEvents_writes_store (files : List FileSnapshot) (st : SysState) :
    (runEvents st (files.map (fun f => WEvent.writeFile f.path f.content))).store
      = st.store := by
  induction files generalizing st with
  | nil => rfl
  | cons f fs ih =>
    simp only [List.map_cons, runEvents, List.foldl_cons]
    exact ih { st with ws := setAssoc st.ws f.path f.content }

theorem runEvents_writes_ws_frame (files : List FileSnapshot) (st : SysState) (p : String) :
    p ∉ files.map (fun f => f.path) →
      lookupAssoc (runEvents st (files.map (fun f => WEvent.writeFile f.path f.content))).ws p
        = lookupAssoc st.ws p := by
  induction files generalizing st with
  | nil =>
    intro _
    rfl
  | cons f fs ih =>
    intro hp
    simp only [List.map_cons, List.mem_cons, not_or] at hp
    simp only [List.map_cons, runEvents, List.foldl_cons]
    have step : lookupAssoc (setAssoc st.ws f.path f.content) p = lookupAssoc st.ws p :=
      lookupAssoc_setAssoc_ne st.ws f.path p f.content hp.1
    have tail := ih { st with ws := setAssoc st.ws f.path f.content } hp.2
    simp only [runEvents] at tail
    exact tail.trans step

/-- Appending keeps a prefix a prefix (character-list form of
`String.isPrefixOf`). -/
theorem strStartsWith_append (p s : String) : strStartsWith p (p ++ s) = true := by
  show p.data.isPrefixOf (p.data ++ s.data) = true
  induction p.data with
  | nil => simp [List.isPrefixOf]
  | cons c cs ih =>
    simp only [List.cons_append, List.isPrefixOf, beq_self_eq_true, Bool.true_and]
    exact ih

/-- C1: whenever the target snapshot resolves, the restore trace persists
exactly one snapshot — the backup, as its very first write, strictly
before every workspace write; the backup carries trigger `manual`, a
`backup_`-marked identity, and a capture of every tracked workspace file;
if persisting the backup fails (a fault at write index zero) the whole
restore fails and not a single workspace file has been touched; and a
fault-free restore leaves the store extended by exactly the backup
record. -/
theorem restore_backupBeforeWrites (st : SysState) (targetId : String) (now : DateTime)
    (r : Nat) (snap : Snapshot) (h : loadSnapshot st.store targetId = some snap) :
    (restoreEvents st targetId now r).head?
        = some (WEvent.putSnap (createBackupBeforeRestore st.ws now r))
      ∧ (∀ e ∈ (restoreEvents st targetId now r).tail, isPutSnap e = false)
      ∧ (createBackupBeforeRestore st.ws now r).trigger = SnapshotTrigger.manual
      ∧ strStartsWith "backup_" (createBackupBeforeRestore st.ws now r).id = true
      ∧ (∀ e ∈ st.ws, shouldIgnoreBackup e.1 = false →
          ({ path := e.1, content := e.2, size := e.2.utf8ByteSize } : FileSnapshot)
            ∈ (createBackupBeforeRestore st.ws now r).files)
      ∧ (restoreSnapshot st targetId now r (some 0)).1 = st
      ∧ (restoreSnapshot st targetId now r (some 0)).2.success = false
      ∧ (restoreSnapshot st targetId now r none).1.store
          = putSnapshot st.store (createBackupBeforeRestore st.ws now r) := by
  refine ⟨?_, ?_, rfl, strStartsWith_append "backup_" _, ?_, ?_, ?_, ?_⟩
  · simp [restoreEvents, h]
  · intro e he
    simp only [restoreEvents, h, List.tail_cons] at he
    rw [List.mem_map] at he
    obtain ⟨f, -, rfl⟩ := he
    rfl
  · intro e he hig
    show _ ∈ trackedFiles st.ws
    unfold trackedFiles
    refine List.mem_map.2 ⟨e, List.mem_filter.2 ⟨he, ?_⟩, rfl⟩
    rw [hig]
    rfl
  · simp [restoreSnapshot, h, runEvents]
  · simp [restoreSnapshot, h]
  · simp only [restoreSnapshot, h, runEvents, List.foldl_cons]
    have := runEvents_writes_store snap.files
      { st with store := putSnapshot st.store (createBackupBeforeRestore st.ws now r) }
    simp only [runEvents] at this
    exact this

/-- Witness for C1 on a concrete one-snapshot store and two-file
workspace: the backup identity and trigger are as required, and a fault
while persisting the backup aborts the restore with the state intact. -/
theorem restore_backupBeforeWrites_witness :
    (createBackupBeforeRestore [("a.txt", "live"), ("b.txt", "keep")]
        ⟨2023, 1, 2, 8, 0, 0, 0⟩ 1).trigger = SnapshotTrigger.manual
      ∧ strStartsWith "backup_"
          (createBackupBeforeRestore [("a.txt", "live"), ("b.txt", "keep")]
            ⟨2023, 1, 2, 8, 0, 0, 0⟩ 1).id = true
      ∧ (restoreSnapshot
            ⟨[("a.txt", "live"), ("b.txt", "keep")],
              [("snapshot_20230101_120000_cafe12",
                some { id := "snapshot_20230101_120000_cafe12",
                       timestamp := "2023-01-01T12:00:00.000Z",
                       trigger := SnapshotTrigger.file_save,
                       files := [{ path := "a.txt", content := "old", size := 3 }],
                       gitCommit := none })]⟩
            "snapshot_20230101_120000_cafe12" ⟨2023, 1, 2, 8, 0, 0, 0⟩ 1 (some 0)).1
          = ⟨[("a.txt", "live"), ("b.txt", "keep")],
              [("snapshot_20230101_120000_cafe12",
                some { id := "snapshot_20230101_120000_cafe12",
                       timestamp := "2023-01-01T12:00:00.000Z",
                       trigger := SnapshotTrigger.file_save,
                       files := [{ path := "a.txt", content := "old", size := 3 }],
                       gitCommit := none })]⟩
      ∧ (restoreSnapshot
            ⟨[("a.txt", "live"), ("b.txt", "keep")],
              [("snapshot_20230101_120000_cafe12",
                some { id := "snapshot_20230101_120000_cafe12",
                       timestamp := "2023-01-01T12:00:00.000Z",
                       trigger := SnapshotTrigger.file_save,
                       files := [{ path := "a.txt", content := "old", size := 3 }],
                       gitCommit := none })]⟩
            "snapshot_20230101_120000_cafe12" ⟨2023, 1, 2, 8, 0, 0, 0⟩ 1 (some 0)).2.success
          = false := by
  have h := restore_backupBeforeWrites
    ⟨[("a.txt", "live"), ("b.txt", "keep")],
      [("snapshot_20230101_120000_cafe12",
        some { id := "snapshot_20230101_120000_cafe12",
               timestamp := "2023-01-01T12:00:00.000Z",
               trigger := SnapshotTrigger.file_save,
               files := [{ path := "a.txt", content := "old", size := 3 }],
               gitCommit := none })]⟩
    "snapshot_20230101_120000_cafe12" ⟨2023, 1, 2, 8, 0, 0, 0⟩ 1
    { id := "snapshot_20230101_120000_cafe12",
      timestamp := ⟨2023, 1, 1, 12, 0, 0, 0⟩,
      trigger := SnapshotTrigger.file_save,
      files := [{ path := "a.txt", content := "old", size := 3 }],
      gitCommit := none }
    (by decide)
  exact ⟨h.2.2.1, h.2.2.2.1, h.2.2.2.2.2.1, h.2.2.2.2.2.2.1⟩

/-- C10: a successful restore writes only the paths listed in the target
snapshot's file captures; every workspace entry whose path is not among
them still resolves to exactly the content it had before the restore (in
particular nothing is deleted). -/
theorem restore_frame (st : SysState) (targetId : String) (now : DateTime) (r : Nat)
    (snap : Snapshot) (p : String) (h : loadSnapshot st.store targetId = some snap)
    (hp : p ∉ snap.files.map (fun f => f.path)) :
    lookupAssoc (restoreSnapshot st targetId now r none).1.ws p = lookupAssoc st.ws p := by
  simp only [restoreSnapshot, h, runEvents, List.foldl_cons]
  have := runEvents_writes_ws_frame snap.files
    { st with store := putSnapshot st.store (createBackupBeforeRestore st.ws now r) } p hp
  simp only [runEvents] at this
  exact this

/-- Witness for C10: restoring a snapshot that captures only `a.txt`
leaves the unrelated `b.txt` untouched. -/
theorem restore_frame_witness :
    lookupAssoc
        (restoreSnapshot
          ⟨[("a.txt", "live"), ("b.txt", "untouched")],
            [("snapshot_20230103_090000_beef00",
              some { id := "snapshot_20230103_090000_beef00",
                     timestamp := "2023-01-03T09:00:00.000Z",
                     trigger := SnapshotTrigger.file_save,
                     files := [{ path := "a.txt", content := "old", size := 3 }],
                     gitCommit := none })]⟩
          "snapshot_20230103_090000_beef00" ⟨2023, 1, 4, 9, 0, 0, 0⟩ 2 none).1.ws
        "b.txt"
      = lookupAssoc [("a.txt", "live"), ("b.txt", "untouched")] "b.txt" :=
  restore_frame
    ⟨[("a.txt", "live"), ("b.txt", "untouched")],
      [("snapshot_20230103_090000_beef00",
        some { id := "snapshot_20230103_090000_beef00",
               timestamp := "2023-01-03T09:00:00.000Z",
               trigger := SnapshotTrigger.file_save,
               files := [{ path := "a.txt", content := "old", size := 3 }],
               gitCommit := none })]⟩
    "snapshot_20230103_090000_beef00" ⟨2023, 1, 4, 9, 0, 0, 0⟩ 2
    { id := "snapshot_20230103_090000_beef00",
      timestamp := ⟨2023, 1, 3, 9, 0, 0, 0⟩,
      trigger := SnapshotTrigger.file_save,
      files := [{ path := "a.txt", content := "old", size := 3 }],
      gitCommit := none }
    "b.txt" (by decide) (by decide)

/-! ## Claim C5: unchanged files are omitted from the diff -/

theorem join_map_empty {α : Type} (l : List α) (f : α → String) (h : ∀ x ∈ l, f x = "") :
    String.join (l.map f) = "" := by
  induction l with
  | nil => rfl
  | cons a tl ih =>
    have ha := h a (by simp)
    simp only [List.map_cons, String.join, List.foldl_cons]
    rw [ha]
    exact ih (fun x hx => h x (by simp [hx]))

/-- C5: the rendered diff contains no entry for any path present in both
snapshots with identical content — such an entry contributes the empty
string, whatever the line-diff algorithm produced for it — and when every
path of the union is present on both sides with identical content (every
shared path unchanged, no path exclusive to one side) the whole per-file
diff output is empty. -/
theorem diff_omitsUnchanged (diffAlg : String → String → List DiffChange)
    (oldSnapshot newSnapshot : Snapshot) :
    (∀ e ∈ computeDiffs diffAlg oldSnapshot newSnapshot,
        e.oldContent.isSome = true → e.newContent.isSome = true →
          e.oldContent = e.newContent → generateFileDiffHtml e = "")
      ∧ ((∀ p ∈ unionPaths oldSnapshot newSnapshot,
            (findFile oldSnapshot p).isSome = true
              ∧ (findFile oldSnapshot p).map (fun f => f.content)
                  = (findFile newSnapshot p).map (fun f => f.content)) →
          renderFileDiffSections diffAlg oldSnapshot newSnapshot = "") := by
  have hone : ∀ e : FileDiffEntry, e.oldContent.isSome = true → e.newContent.isSome = true →
      e.oldContent = e.newContent → generateFileDiffHtml e = "" := by
    intro e h1 h2 h3
    have hno : ¬ e.oldContent = none := by
      intro hnone
      rw [hnone] at h1
      simp at h1
    have hnn : ¬ e.newContent = none := by
      intro hnone
      rw [hnone] at h2
      simp at h2
    unfold generateFileDiffHtml
    rw [if_neg hno, if_neg hnn, if_pos h3]
  refine ⟨fun e _ => hone e, ?_⟩
  intro H
  unfold renderFileDiffSections
  apply join_map_empty
  intro x hx
  unfold computeDiffs at hx
  rw [List.mem_map] at hx
  obtain ⟨p, hp, rfl⟩ := hx
  obtain ⟨hsome, heq⟩ := H p hp
  apply hone
  · show ((findFile oldSnapshot p).map (fun f => f.content)).isSome = true
    obtain ⟨fo, hfo⟩ := Option.isSome_iff_exists.mp hsome
    rw [hfo]
    rfl
  · show ((findFile newSnapshot p).map (fun f => f.content)).isSome = true
    obtain ⟨fo, hfo⟩ := Option.isSome_iff_exists.mp hsome
    rw [← heq, hfo]
    rfl
  · exact heq

/-- Witness for C5: two snapshots sharing one path with identical content
render an empty diff (with a concrete stand-in for the external line-diff
algorithm). -/
theorem diff_omitsUnchanged_witness :
    renderFileDiffSections (fun a b => [{ value := a ++ b, added := false, removed := false }])
        { id := "snapshot_20230101_100000_aaaaaa",
          timestamp := ⟨2023, 1, 1, 10, 0, 0, 0⟩,
          trigger := SnapshotTrigger.file_save,
          files := [{ path := "a.txt", content := "same", size := 4 }],
          gitCommit := none }
        { id := "snapshot_20230101_110000_cccccc",
          timestamp := ⟨2023, 1, 1, 11, 0, 0, 0⟩,
          trigger := SnapshotTrigger.file_save,
          files := [{ path := "a.txt", content := "same", size := 4 }],
          gitCommit := none }
      = "" :=
  (diff_omitsUnchanged (fun a b => [{ value := a ++ b, added := false, removed := false }])
      { id := "snapshot_20230101_100000_aaaaaa",
        timestamp := ⟨2023, 1, 1, 10, 0, 0, 0⟩,
        trigger := SnapshotTrigger.file_save,
        files := [{ path := "a.txt", content := "same", size := 4 }],
        gitCommit := none }
      { id := "snapshot_20230101_110000_cccccc",
        timestamp := ⟨2023, 1, 1, 11, 0, 0, 0⟩,
        trigger := SnapshotTrigger.file_save,
        files := [{ path := "a.txt", content := "same", size := 4 }],
        gitCommit := none }).2
    (by decide)

end Atlas
